import Mathlib

/-!
Verification of the WebGL watercolor background core of the portfolio
repository: the displacement-field simulation shader, the ping-pong buffer
management, the Kuwahara painterly filter, the wash crossfade shader, the
watercolor enhancement shader, and the orchestrator (idle state machine,
color transitions, movement intensity).

GLSL floating point arithmetic is embedded over the rationals.  Texture
lookups, trigonometric functions and square roots are passed in as oracle
functions (a texture is an arbitrary function from UV coordinates to texel
values; cosine, sine and sqrt are arbitrary rational-valued functions,
constrained by hypotheses such as being on the unit circle where a proof
needs it).  All other arithmetic is translated statement by statement from
the shader and TypeScript sources.
-/

/-! ## GLSL arithmetic primitives -/

/-- GLSL clamp: min(max(x, lo), hi). -/
def clampQ (x lo hi : ℚ) : ℚ := min (max x lo) hi

/-- GLSL mix: linear blend x * (1 - a) + y * a. -/
def mixQ (x y a : ℚ) : ℚ := x * (1 - a) + y * a

/-- GLSL fract: x - floor(x). -/
def fractQ (x : ℚ) : ℚ := x - (⌊x⌋ : ℚ)

/-- GLSL smoothstep: cubic Hermite ramp between the two edges. -/
def smoothstepQ (e0 e1 x : ℚ) : ℚ :=
  let t := clampQ ((x - e0) / (e1 - e0)) 0 1
  t * t * (3 - 2 * t)

/-- lerp from scene-controller.ts: start + (end - start) * t. -/
def lerpQ (s e t : ℚ) : ℚ := s + (e - s) * t

theorem clampQ_le {lo hi : ℚ} (x : ℚ) : clampQ x lo hi ≤ hi :=
  min_le_right _ _

theorem le_clampQ {lo hi : ℚ} (x : ℚ) (h : lo ≤ hi) : lo ≤ clampQ x lo hi :=
  le_min (le_max_right _ _) h

theorem fractQ_nonneg (x : ℚ) : 0 ≤ fractQ x := by
  have := Int.floor_le x
  unfold fractQ; linarith

theorem fractQ_lt_one (x : ℚ) : fractQ x < 1 := by
  have := Int.lt_floor_add_one x
  unfold fractQ; linarith

theorem mixQ_mem {x y a lo hi : ℚ} (hx : lo ≤ x) (hx2 : x ≤ hi)
    (hy : lo ≤ y) (hy2 : y ≤ hi) (ha : 0 ≤ a) (ha2 : a ≤ 1) :
    lo ≤ mixQ x y a ∧ mixQ x y a ≤ hi := by
  unfold mixQ
  constructor <;> nlinarith

theorem smoothstepQ_of_le {e0 e1 x : ℚ} (h : x ≤ e0) (he : e0 < e1) :
    smoothstepQ e0 e1 x = 0 := by
  unfold smoothstepQ clampQ
  have h1 : (x - e0) / (e1 - e0) ≤ 0 := by
    apply div_nonpos_of_nonpos_of_nonneg <;> linarith
  have h2 : max ((x - e0) / (e1 - e0)) 0 = 0 := max_eq_right h1
  rw [h2]
  simp

/-! ## RGB triples -/

/-- An RGB texel value, one rational per channel. -/
structure V3 where
  r : ℚ
  g : ℚ
  b : ℚ
deriving DecidableEq

instance : Add V3 := ⟨fun a c => ⟨a.r + c.r, a.g + c.g, a.b + c.b⟩⟩
instance : Sub V3 := ⟨fun a c => ⟨a.r - c.r, a.g - c.g, a.b - c.b⟩⟩
instance : Mul V3 := ⟨fun a c => ⟨a.r * c.r, a.g * c.g, a.b * c.b⟩⟩

/-- Scalar multiplication of a texel. -/
def V3.scale (k : ℚ) (a : V3) : V3 := ⟨k * a.r, k * a.g, k * a.b⟩

/-- Broadcast a scalar to all three channels (GLSL vec3(s)). -/
def V3.splat (s : ℚ) : V3 := ⟨s, s, s⟩

/-- GLSL dot on vec3. -/
def V3.dot (a c : V3) : ℚ := a.r * c.r + a.g * c.g + a.b * c.b

/-- Componentwise GLSL mix on vec3 with a scalar blend factor. -/
def V3.mix3 (x y : V3) (a : ℚ) : V3 :=
  ⟨mixQ x.r y.r a, mixQ x.g y.g a, mixQ x.b y.b a⟩

/-- Componentwise GLSL clamp on vec3 with scalar bounds. -/
def V3.clamp3 (x : V3) (lo hi : ℚ) : V3 :=
  ⟨clampQ x.r lo hi, clampQ x.g lo hi, clampQ x.b lo hi⟩

/-- Componentwise GLSL max of a vec3 against a broadcast scalar. -/
def V3.max3 (x : V3) (s : ℚ) : V3 := ⟨max x.r s, max x.g s, max x.b s⟩

theorem V3.ext3 {a c : V3} (hr : a.r = c.r) (hg : a.g = c.g) (hb : a.b = c.b) :
    a = c := by
  cases a; cases c; simp_all

/-! ## Displacement field shader (src/js/webgl/shaders/displacement.ts)

The fragment shader advances one cell of the (height, velocity) field.
The previous-state texture is an oracle returning the rg channels; the
trigonometric ring sampling, and the sqrt inside length(), are oracles as
well, since they only determine which texels are sampled and the brush
distance, not the arithmetic structure of the update. -/

/-- Uniforms of the displacement shader. -/
structure DispParams where
  brushSize : ℚ
  expandRate : ℚ
  fillRate : ℚ
  waveSpeed : ℚ
  waveDamping : ℚ
  isActive : ℚ
  moveIntensity : ℚ
  time : ℚ
  imageAspect : ℚ
  resolution : ℚ × ℚ
  texelSize : ℚ × ℚ
  mouse : ℚ × ℚ

/-- getImageUV of displacement.ts: screen UV to image UV, also returning
the scale factors (the GLSL out parameter). -/
def dispGetImageUV (resolution : ℚ × ℚ) (imageAspect : ℚ) (uv : ℚ × ℚ) :
    (ℚ × ℚ) × (ℚ × ℚ) :=
  let screenAspect := resolution.1 / resolution.2
  if screenAspect > imageAspect then
    let minScale : ℚ := 0.8
    let scale : ℚ × ℚ := (1, max (imageAspect / screenAspect) minScale)
    ((uv.1 * scale.1, uv.2 * scale.2), scale)
  else
    let sx := screenAspect / imageAspect
    let scale : ℚ × ℚ := (sx, 1)
    let offset : ℚ × ℚ := ((1 - sx) * 0.5, 0)
    ((uv.1 * scale.1 + offset.1, uv.2 * scale.2 + offset.2), scale)

/-- Body of the displacement fragment shader main() up to, but not
including, the final clamp.  tex is the tPrevState texture (rg channels),
trig gives (cos a, sin a) for the ring sampling and the brush distance
computation uses the sqrt oracle. -/
def dispBody (p : DispParams) (tex : ℚ × ℚ → ℚ × ℚ) (trig : ℚ → ℚ × ℚ)
    (sqrtF : ℚ → ℚ) (vUv : ℚ × ℚ) : ℚ × ℚ :=
  let prevState := tex vUv
  let height := prevState.1
  let velocity := prevState.2
  let rot := p.time * 1.5
  let sampleRadius : ℚ := 2
  -- 8 ring neighbors, tracking running min (seeded 0) and max (seeded -1)
  let ring := (List.range 8).map (fun i =>
    let angle := (i : ℚ) * 0.785398 + rot
    let cs := trig angle
    let offset := (cs.1 * p.texelSize.1 * sampleRadius,
                   cs.2 * p.texelSize.2 * sampleRadius)
    (tex (vUv.1 + offset.1, vUv.2 + offset.2)).1)
  let minNeighbor := ring.foldl min 0
  let maxNeighbor := ring.foldl max (-1)
  -- wave equation on the 4-neighborhood Laplacian
  let left := (tex (vUv.1 - p.texelSize.1, vUv.2)).1
  let right := (tex (vUv.1 + p.texelSize.1, vUv.2)).1
  let up := (tex (vUv.1, vUv.2 + p.texelSize.2)).1
  let down := (tex (vUv.1, vUv.2 - p.texelSize.2)).1
  let laplacian := left + right + up + down - 4 * height
  let velocity := velocity + laplacian * p.waveSpeed
  let velocity := velocity * p.waveDamping
  let height := height + velocity * 0.2
  -- expansion, scaled by movement intensity
  let height :=
    if minNeighbor < -0.15 ∧ minNeighbor < height then
      mixQ height (minNeighbor * 0.92) (p.expandRate * p.moveIntensity)
    else height
  -- collapse toward the maximum neighbor
  let height :=
    if maxNeighbor > height then mixQ height maxNeighbor p.fillRate
    else height
  -- velocity decay once the cell has nearly settled
  let velocity := if height > -0.15 then velocity * 0.85 else velocity
  -- mouse brush injection
  let hv :=
    if p.isActive > 0.5 then
      let iu := dispGetImageUV p.resolution p.imageAspect vUv
      let im := dispGetImageUV p.resolution p.imageAspect p.mouse
      let screenAspect := p.resolution.1 / p.resolution.2
      let delta := ((iu.1.1 - im.1.1) / iu.2.1, (iu.1.2 - im.1.2) / iu.2.2)
      let correctedDelta := (delta.1 * screenAspect, delta.2)
      let dist := sqrtF (correctedDelta.1 * correctedDelta.1 +
                         correctedDelta.2 * correctedDelta.2)
      let softness : ℚ := 0.015
      let brush := 1 - smoothstepQ (p.brushSize - softness)
                                   (p.brushSize + softness) dist
      if brush > 0 then (mixQ height (-1) brush, mixQ velocity 0 brush)
      else (height, velocity)
    else (height, velocity)
  hv

/-- The displacement fragment shader main(): the body followed by the
unconditional clamp of height to [-1, 0] and velocity to [-0.2, 0.2]. -/
def dispMain (p : DispParams) (tex : ℚ × ℚ → ℚ × ℚ) (trig : ℚ → ℚ × ℚ)
    (sqrtF : ℚ → ℚ) (vUv : ℚ × ℚ) : ℚ × ℚ :=
  let hv := dispBody p tex trig sqrtF vUv
  (clampQ hv.1 (-1) 0, clampQ hv.2 (-0.2) 0.2)

/-! ## Ping-pong buffering (src/js/webgl/three-manager.ts) -/

/-- The role tag of a displacement render target. -/
inductive DispTarget | A | B
deriving DecidableEq

/-- The buffer renderDisplacementPass samples from (tPrevState). -/
def renderSource (cur : DispTarget) : DispTarget :=
  match cur with
  | .A => .A
  | .B => .B

/-- The buffer renderDisplacementPass renders into. -/
def renderTarget (cur : DispTarget) : DispTarget :=
  match cur with
  | .A => .B
  | .B => .A

/-- The swap at the end of renderDisplacementPass. -/
def swapTarget (cur : DispTarget) : DispTarget :=
  match cur with
  | .A => .B
  | .B => .A

/-- getDisplacementTexture: the texture just rendered to. -/
def getDisplacementTexture (cur : DispTarget) : DispTarget :=
  match cur with
  | .A => .B
  | .B => .A

/-- The current-target tag after n render passes starting from init. -/
def curAfter (init : DispTarget) : ℕ → DispTarget
  | 0 => init
  | n + 1 => swapTarget (curAfter init n)

/-! ## Kuwahara filter (src/js/webgl/shaders/kuwahara.ts)

kuwaharaFilter partitions a neighborhood into 4 quadrants, samples each on
a fixed 3x3 grid, and returns the mean of the quadrant with the minimum
luminance-weighted variance. -/

/-- The luminance weights used for the scalar variance reduction. -/
def lumWeights : V3 := ⟨0.299, 0.587, 0.114⟩

/-- The four quadrant direction vectors, in source order. -/
def kuwaharaQuadrants : List (ℚ × ℚ) := [(-1, 1), (1, 1), (-1, -1), (1, -1)]

/-- The 3x3 grid offsets of one quadrant, in source loop order
(y outer, x inner). -/
def kuwaharaGrid : List (ℚ × ℚ) :=
  [(0, 0), (1, 0), (2, 0), (0, 1), (1, 1), (2, 1), (0, 2), (1, 2), (2, 2)]

/-- Mean color and luminance-weighted variance of one quadrant. -/
def quadStat (tex : ℚ × ℚ → V3) (uv : ℚ × ℚ) (texel : ℚ × ℚ) (r : ℚ)
    (qDir : ℚ × ℚ) : V3 × ℚ :=
  let acc := kuwaharaGrid.foldl (fun (a : V3 × V3) (xy : ℚ × ℚ) =>
    let offset := (qDir.1 * xy.1 * r * 0.33 * texel.1,
                   qDir.2 * xy.2 * r * 0.33 * texel.2)
    let s := tex (uv.1 + offset.1, uv.2 + offset.2)
    (a.1 + s, a.2 + s * s)) (V3.splat 0, V3.splat 0)
  let mean := V3.scale (1 / 9) acc.1
  let v3 := V3.scale (1 / 9) acc.2 - mean * mean
  (mean, V3.dot (V3.max3 v3 0) lumWeights)

/-- kuwaharaFilter: the four quadrant statistics and the minimum-variance
selection loop (minIdx starts at 0; a strictly smaller variance wins). -/
def kuwaharaFilter (resolution : ℚ × ℚ) (kernelSize : ℚ)
    (tex : ℚ × ℚ → V3) (uv : ℚ × ℚ) : V3 :=
  let texel := (1 / resolution.1, 1 / resolution.2)
  let stats := kuwaharaQuadrants.map (quadStat tex uv texel kernelSize)
  let pick := fun (best q : V3 × ℚ) => if q.2 < best.2 then q else best
  match stats with
  | s0 :: rest => (rest.foldl pick s0).1
  | [] => V3.splat 0

/-! ## Wash crossfade shader (src/unnamed/part_006, proceduralGradientShader)

getImageColor blends the current and next painting across a rotated,
noise-perturbed sweep boundary.  The sine used by the hash grid is an
oracle; fract forces the hash into [0, 1) regardless of it.  The rotation
cosine and sine are an oracle pair constrained to the unit circle in the
endpoint theorem. -/

/-- hash of part_006: fract(sin(dot(p, (127.1, 311.7))) * 43758.5453). -/
def washHash (sinF : ℚ → ℚ) (p : ℚ × ℚ) : ℚ :=
  fractQ (sinF (p.1 * 127.1 + p.2 * 311.7) * 43758.5453)

/-- noise of part_006: smoothed bilinear blend of four grid hashes. -/
def washNoise (sinF : ℚ → ℚ) (p : ℚ × ℚ) : ℚ :=
  let i : ℚ × ℚ := ((⌊p.1⌋ : ℚ), (⌊p.2⌋ : ℚ))
  let f : ℚ × ℚ := (fractQ p.1, fractQ p.2)
  let f : ℚ × ℚ := (f.1 * f.1 * (3 - 2 * f.1), f.2 * f.2 * (3 - 2 * f.2))
  let a := washHash sinF i
  let b := washHash sinF (i.1 + 1, i.2)
  let c := washHash sinF (i.1, i.2 + 1)
  let d := washHash sinF (i.1 + 1, i.2 + 1)
  mixQ (mixQ a b f.1) (mixQ c d f.1) f.2

/-- fbmNoise of part_006: 4 octaves, halving amplitude and doubling the
coordinate each step. -/
def fbmNoise (sinF : ℚ → ℚ) (p : ℚ × ℚ) : ℚ :=
  let v1 := 0.5 * washNoise sinF p
  let p2 := (p.1 * 2, p.2 * 2)
  let v2 := v1 + 0.25 * washNoise sinF p2
  let p3 := (p2.1 * 2, p2.2 * 2)
  let v3 := v2 + 0.125 * washNoise sinF p3
  let p4 := (p3.1 * 2, p3.2 * 2)
  v3 + 0.0625 * washNoise sinF p4

/-- getImageUV of part_006: cover-style aspect correction. -/
def washGetImageUV (resolution : ℚ × ℚ) (imageAspect : ℚ) (uv : ℚ × ℚ) :
    ℚ × ℚ :=
  let screenAspect := resolution.1 / resolution.2
  if screenAspect > imageAspect then
    let minScale : ℚ := 0.8
    let sy := max (imageAspect / screenAspect) minScale
    (uv.1 * 1 + 0, uv.2 * sy + 0)
  else
    let sx := screenAspect / imageAspect
    (uv.1 * sx + (1 - sx) * 0.5, uv.2 * 1 + 0)

/-- The rotated UV used by the wash boundary (rotation about (0.5, 0.5)
by the wash angle, whose cosine and sine are the oracle values c and s). -/
def washRotatedUV (c s : ℚ) (uv : ℚ × ℚ) : ℚ × ℚ :=
  let ru : ℚ × ℚ := (uv.1 - 0.5, uv.2 - 0.5)
  let ru : ℚ × ℚ := (ru.1 * c - ru.2 * s, ru.1 * s + ru.2 * c)
  (ru.1 + 0.5, ru.2 + 0.5)

/-- The layered noise added to the sweep boundary. -/
def washTotalNoise (sinF : ℚ → ℚ) (rotatedUV : ℚ × ℚ) : ℚ :=
  let largeNoise := fbmNoise sinF (rotatedUV.1 * 1.5, rotatedUV.2 * 3) * 0.25
  let mediumNoise :=
    fbmNoise sinF (rotatedUV.1 * 4 + 100, rotatedUV.2 * 8 + 100) * 0.12
  let fineNoise := washNoise sinF (rotatedUV.1 * 20, rotatedUV.2 * 20) * 0.04
  largeNoise + mediumNoise + fineNoise

/-- getImageColor of part_006: the wash crossfade between the current and
next painting.  cosF and sinF are the trigonometric oracles (sinF also
feeds the hash noise). -/
def getImageColor (cosF sinF : ℚ → ℚ) (resolution : ℚ × ℚ)
    (imageAspect washProgress washAngle : ℚ)
    (texCurrent texNext : ℚ × ℚ → V3) (uv : ℚ × ℚ) : V3 :=
  let imageUv := washGetImageUV resolution imageAspect uv
  let currentColor := texCurrent imageUv
  if washProgress > 0 then
    let nextColor := texNext imageUv
    let progress := washProgress * washProgress * (3 - 2 * washProgress)
    let rotatedUV := washRotatedUV (cosF washAngle) (sinF washAngle) uv
    let totalNoise := washTotalNoise sinF rotatedUV
    let sweepPos := progress * 2.6 - 0.8
    let edge := rotatedUV.1 - sweepPos + totalNoise
    let featherWidth : ℚ := 0.15
    let mask := smoothstepQ (-featherWidth) featherWidth edge
    V3.mix3 nextColor currentColor mask
  else
    currentColor

/-! ## ThreeManager buffer/aspect state (src/unnamed/part_007)

completePaintingTransition swaps the current painting texture and updates
the aspect uniforms; clearDisplacementBuffer clears both displacement
render targets.  The buffers are abstracted to one representative stored
height value each. -/

/-- The ThreeManager state relevant to aspect changes: a representative
height cell of each displacement buffer and the aspect uniforms of the
noise and displacement materials. -/
structure TMState where
  bufA : ℚ
  bufB : ℚ
  noiseAspect : ℚ
  dispAspect : ℚ
  currentPaintingIndexTM : ℕ
deriving DecidableEq

/-- completePaintingTransition of part_007: sets the index and, when the
texture for the new index exists (its aspect is given), updates both
aspect uniforms.  The displacement buffers are not touched. -/
def completePaintingTransition (s : TMState) (newIndex : ℕ)
    (newTexAspect : Option ℚ) : TMState :=
  let s := { s with currentPaintingIndexTM := newIndex }
  match newTexAspect with
  | some aspect => { s with noiseAspect := aspect, dispAspect := aspect }
  | none => s

/-- clearDisplacementBuffer of part_007: clears both render targets. -/
def clearDisplacementBuffer (s : TMState) : TMState :=
  { s with bufA := 0, bufB := 0 }

/-! ## Idle / wash state machine (src/js/webgl/scene-controller.ts,
third revision, lines 681-949 of the concatenated file)

Times are integer milliseconds.  The 500 ms setInterval callback is
idleCheck; updateWashTransition runs from the per-frame update loop while
a wash is in flight. -/

/-- The idle and wash fields of SceneController. -/
structure IdleSM where
  lastActivityTime : ℤ
  isIdle : Bool
  idleStartTime : ℤ
  isWashTransitioning : Bool
  washProgress : ℚ
  washStartTime : ℤ
  currentPaintingIndex : ℕ
  totalPaintings : ℕ
deriving DecidableEq

/-- The idleTimeout constant (15 s). -/
def idleTimeout : ℤ := 15000

/-- The washDuration constant (5 s). -/
def washDuration : ℚ := 5000

/-- The initial SceneController idle state at t = 0 (construction time). -/
def idleInit : IdleSM :=
  { lastActivityTime := 0, isIdle := false, idleStartTime := 0
    isWashTransitioning := false, washProgress := 0, washStartTime := 0
    currentPaintingIndex := 0, totalPaintings := 7 }

/-- triggerNextPainting: guard on an in-flight wash, advance the index
cyclically, start the wash timer, reset the idle clock. -/
def triggerNextPainting (now : ℤ) (s : IdleSM) : IdleSM :=
  if s.isWashTransitioning then s
  else
    let nextIndex := (s.currentPaintingIndex + 1) % s.totalPaintings
    { s with isWashTransitioning := true, washProgress := 0
             washStartTime := now, currentPaintingIndex := nextIndex
             idleStartTime := now }

/-- The body of the 500 ms setInterval callback in setupIdleDetection. -/
def idleCheck (now : ℤ) (s : IdleSM) : IdleSM :=
  let timeSinceActivity := now - s.lastActivityTime
  let s :=
    if timeSinceActivity > idleTimeout ∧ ¬s.isIdle then
      { s with isIdle := true, idleStartTime := now }
    else s
  if s.isIdle ∧ ¬s.isWashTransitioning then
    let idleDuration := now - s.idleStartTime
    if idleDuration > idleTimeout then triggerNextPainting now s else s
  else s

/-- completeWashTransition: stop washing and reset the progress (the
texture swap happens in ThreeManager). -/
def completeWashTransition (s : IdleSM) : IdleSM :=
  { s with isWashTransitioning := false, washProgress := 0 }

/-- updateWashTransition: advance the wash progress, completing at 1. -/
def updateWashTransition (now : ℤ) (s : IdleSM) : IdleSM :=
  let elapsed := now - s.washStartTime
  let progress := min ((elapsed : ℚ) / washDuration) 1
  let s := { s with washProgress := progress }
  if s.washProgress ≥ 1 then completeWashTransition s else s

/-- The wash-related part of the per-frame update loop. -/
def frameUpdate (now : ℤ) (s : IdleSM) : IdleSM :=
  if s.isWashTransitioning then updateWashTransition now s else s

/-- The no-activity scenario: starting at t = 0, one 500 ms tick applies
the interval callback and then a frame update at the same instant.
idleScenario n is the state just after the tick at t = 500 * n ms. -/
def idleScenario : ℕ → IdleSM
  | 0 => idleInit
  | n + 1 =>
    let t : ℤ := 500 * ((n : ℤ) + 1)
    frameUpdate t (idleCheck t (idleScenario n))

/-! ## Section color transition (src/js/webgl/scene-controller.ts) -/

/-- easeOutCubic of scene-controller.ts. -/
def easeOutCubic (t : ℚ) : ℚ := 1 - (1 - t) ^ 3

/-- transitionDuration (2 s, in ms). -/
def transitionDuration : ℚ := 2000

/-- One frame of the color transition for one channel: progress is
elapsed over duration capped at 1, the eased factor feeds lerp. -/
def colorChannelUpdate (cur target elapsed : ℚ) : ℚ :=
  let progress := min (elapsed / transitionDuration) 1
  let t := easeOutCubic progress
  lerpQ cur target t

/-! ## Movement intensity (src/js/webgl/scene-controller.ts) -/

/-- The per-frame target intensity from the pointer position delta
magnitude (the nonnegative output of Math.sqrt on the squared delta). -/
def intensityTarget (moveSpeed : ℚ) : ℚ := min (moveSpeed * 50) 1

/-- One asymmetric smoothing step of the movement intensity: factor 0.3
on rise, 0.05 on decay. -/
def intensityStep (cur moveSpeed : ℚ) : ℚ :=
  let t := intensityTarget moveSpeed
  if t > cur then lerpQ cur t 0.3 else lerpQ cur t 0.05

/-- The smoothed intensity after a sequence of per-frame speed inputs. -/
def intensityRun (init : ℚ) (speeds : List ℚ) : ℚ :=
  speeds.foldl intensityStep init

/-! ## Watercolor enhancement shader
(src/js/webgl/shaders/watercolor-enhance.ts) -/

/-- Uniforms of the enhancement shader. -/
structure EnhanceParams where
  resolution : ℚ × ℚ
  paperStrength : ℚ
  paperScale : ℚ
  saturation : ℚ
  edgeDarkening : ℚ
  vignetteStrength : ℚ
  useDisplacement : ℚ
  contrast : ℚ
  skipEdgeDetection : ℚ

/-- detectEdges: Sobel operator on a 3x3 luminance neighborhood; the
final length() uses the sqrt oracle. -/
def detectEdges (p : EnhanceParams) (texDiffuse : ℚ × ℚ → V3)
    (sqrtF : ℚ → ℚ) (uv : ℚ × ℚ) : ℚ :=
  let texel := (1 / p.resolution.1, 1 / p.resolution.2)
  let lumAt := fun (q : ℚ × ℚ) => V3.dot (texDiffuse q) lumWeights
  let tl := lumAt (uv.1 - texel.1, uv.2 + texel.2)
  let t := lumAt (uv.1, uv.2 + texel.2)
  let tr := lumAt (uv.1 + texel.1, uv.2 + texel.2)
  let l := lumAt (uv.1 - texel.1, uv.2)
  let r := lumAt (uv.1 + texel.1, uv.2)
  let bl := lumAt (uv.1 - texel.1, uv.2 - texel.2)
  let bb := lumAt (uv.1, uv.2 - texel.2)
  let br := lumAt (uv.1 + texel.1, uv.2 - texel.2)
  let gx := (tl + 2 * l + bl) - (tr + 2 * r + br)
  let gy := (tl + 2 * t + tr) - (bl + 2 * bb + br)
  sqrtF (gx * gx + gy * gy)

/-- getDisplacementGradient of watercolor-enhance.ts. -/
def enhanceDispGradient (p : EnhanceParams) (texDisp : ℚ × ℚ → ℚ)
    (uv : ℚ × ℚ) : ℚ × ℚ :=
  let texel := (1 / p.resolution.1, 1 / p.resolution.2)
  let left := texDisp (uv.1 - texel.1, uv.2)
  let right := texDisp (uv.1 + texel.1, uv.2)
  let up := texDisp (uv.1, uv.2 + texel.2)
  let down := texDisp (uv.1, uv.2 - texel.2)
  (right - left, up - down)

/-- The distorted sample UV of the enhancement shader main(). -/
def enhanceSampleUV (p : EnhanceParams) (texDisp : ℚ × ℚ → ℚ)
    (vUv : ℚ × ℚ) : ℚ × ℚ :=
  if p.useDisplacement > 0.5 then
    let gradient := enhanceDispGradient p texDisp vUv
    (vUv.1 + gradient.1 * 0.03, vUv.2 + gradient.2 * 0.03)
  else vUv

/-- The effect strength of the enhancement shader main(): the sharp
displacement-reveal cutoff (0 where revealed, 1 elsewhere). -/
def enhanceEffectStrength (p : EnhanceParams) (texDisp : ℚ × ℚ → ℚ)
    (vUv : ℚ × ℚ) : ℚ :=
  if p.useDisplacement > 0.5 then
    if texDisp vUv < -0.1 then 0 else 1
  else 1

/-- The vignette factor of the enhancement shader main() (length uses the
sqrt oracle). -/
def enhanceVignette (sqrtF : ℚ → ℚ) (vUv : ℚ × ℚ) : ℚ :=
  let d := sqrtF ((vUv.1 - 0.5) * (vUv.1 - 0.5) +
                  (vUv.2 - 0.5) * (vUv.2 - 0.5))
  1 - smoothstepQ 0.5 1.2 d

/-- Body of the enhancement shader main() up to, but not including, the
final clamp. -/
def enhanceBody (p : EnhanceParams) (texDiffuse texPaper : ℚ × ℚ → V3)
    (texDisp : ℚ × ℚ → ℚ) (sqrtF : ℚ → ℚ) (vUv : ℚ × ℚ) : V3 :=
  let sampleUV := enhanceSampleUV p texDisp vUv
  let effectStrength := enhanceEffectStrength p texDisp vUv
  let color := texDiffuse sampleUV
  -- edge darkening
  let edges := if p.skipEdgeDetection < 0.5
    then detectEdges p texDiffuse sqrtF sampleUV else 0
  let color := V3.scale (1 - edges * p.edgeDarkening * effectStrength) color
  -- saturation boost
  let gray := V3.splat (V3.dot color lumWeights)
  let color := V3.mix3 gray color (mixQ 1 p.saturation effectStrength)
  -- paper texture overlay
  let paper := texPaper (sampleUV.1 * p.paperScale, sampleUV.2 * p.paperScale)
  let color := V3.mix3 color (color * paper) (p.paperStrength * effectStrength)
  -- vignette
  let vignette := enhanceVignette sqrtF vUv
  let color := V3.scale (mixQ 1 vignette p.vignetteStrength) color
  -- contrast remap
  ⟨(color.r - 0.5) * p.contrast + 0.5,
   (color.g - 0.5) * p.contrast + 0.5,
   (color.b - 0.5) * p.contrast + 0.5⟩

/-- The enhancement shader main(): the body followed by the final clamp
of every channel to [0, 1]. -/
def enhanceMain (p : EnhanceParams) (texDiffuse texPaper : ℚ × ℚ → V3)
    (texDisp : ℚ × ℚ → ℚ) (sqrtF : ℚ → ℚ) (vUv : ℚ × ℚ) : V3 :=
  V3.clamp3 (enhanceBody p texDiffuse texPaper texDisp sqrtF vUv) 0 1

/-! ## Claim theorems -/

/-- C1: after every displacement simulation step, for every cell, every
texture state (any sequence of prior steps and pointer inputs) and every
parameter value, the height channel lies in [-1, 0] and the velocity
channel lies in [-0.2, 0.2]: the clamp is the unconditional last
operation of the fragment shader. -/
theorem dispMain_clamp_invariant (p : DispParams) (tex : ℚ × ℚ → ℚ × ℚ)
    (trig : ℚ → ℚ × ℚ) (sqrtF : ℚ → ℚ) (vUv : ℚ × ℚ) :
    -1 ≤ (dispMain p tex trig sqrtF vUv).1 ∧
    (dispMain p tex trig sqrtF vUv).1 ≤ 0 ∧
    -0.2 ≤ (dispMain p tex trig sqrtF vUv).2 ∧
    (dispMain p tex trig sqrtF vUv).2 ≤ 0.2 := by
  unfold dispMain
  exact ⟨le_clampQ _ (by norm_num), clampQ_le _,
         le_clampQ _ (by norm_num), clampQ_le _⟩

/-- C2: the ping-pong double buffering alternates deterministically:
starting from the initial role A, the current tag after N passes is
determined by N mod 2, and no pass ever samples the buffer it renders
into. -/
theorem pingPong_deterministic_no_self_read :
    (∀ n : ℕ, curAfter DispTarget.A n =
      if n % 2 = 0 then DispTarget.A else DispTarget.B) ∧
    (∀ cur : DispTarget, renderSource cur ≠ renderTarget cur) := by
  constructor
  · intro n
    induction n with
    | zero => rfl
    | succ k ih =>
      by_cases h : k % 2 = 0
      · have h2 : (k + 1) % 2 = 1 := by omega
        simp [curAfter, ih, h, h2, swapTarget]
      · have h2 : (k + 1) % 2 = 0 := by omega
        simp [curAfter, ih, h, h2, swapTarget]
  · intro cur
    cases cur <;> decide

/-- C10: the enhancement shader output has every RGB channel in [0, 1]
for every input color, texture state and parameter setting, because the
componentwise clamp is the last operation before output. -/
theorem enhanceMain_output_in_unit_range (p : EnhanceParams)
    (texDiffuse texPaper : ℚ × ℚ → V3) (texDisp : ℚ × ℚ → ℚ)
    (sqrtF : ℚ → ℚ) (vUv : ℚ × ℚ) :
    0 ≤ (enhanceMain p texDiffuse texPaper texDisp sqrtF vUv).r ∧
    (enhanceMain p texDiffuse texPaper texDisp sqrtF vUv).r ≤ 1 ∧
    0 ≤ (enhanceMain p texDiffuse texPaper texDisp sqrtF vUv).g ∧
    (enhanceMain p texDiffuse texPaper texDisp sqrtF vUv).g ≤ 1 ∧
    0 ≤ (enhanceMain p texDiffuse texPaper texDisp sqrtF vUv).b ∧
    (enhanceMain p texDiffuse texPaper texDisp sqrtF vUv).b ≤ 1 := by
  unfold enhanceMain V3.clamp3
  exact ⟨le_clampQ _ (by norm_num), clampQ_le _,
         le_clampQ _ (by norm_num), clampQ_le _,
         le_clampQ _ (by norm_num), clampQ_le _⟩

/-- C5: completing a painting transition to an image of different aspect
ratio does not clear the displacement buffers: at the concrete state with
stale height -1 in both buffers and aspect 1, switching to a texture of
aspect 2 changes both aspect uniforms but leaves the stale heights in
place (the state differs from its cleared form), contradicting the
required clearing. -/
theorem completePaintingTransition_leaves_stale_buffers :
    completePaintingTransition ⟨-1, -1, 1, 1, 0⟩ 1 (some 2) =
      ⟨-1, -1, 2, 2, 1⟩ ∧
    (completePaintingTransition ⟨-1, -1, 1, 1, 0⟩ 1
      (some 2)).dispAspect ≠ (1 : ℚ) ∧
    completePaintingTransition ⟨-1, -1, 1, 1, 0⟩ 1 (some 2) ≠
      clearDisplacementBuffer
        (completePaintingTransition ⟨-1, -1, 1, 1, 0⟩ 1 (some 2)) := by
  refine ⟨rfl, by decide, by decide⟩

/-- Unfolding lemma for V3 addition. -/
theorem V3.add_def (a c : V3) : a + c = ⟨a.r + c.r, a.g + c.g, a.b + c.b⟩ := rfl

/-- Unfolding lemma for V3 componentwise multiplication. -/
theorem V3.mul_def (a c : V3) : a * c = ⟨a.r * c.r, a.g * c.g, a.b * c.b⟩ := rfl

/-- Unfolding lemma for V3 subtraction. -/
theorem V3.sub_def (a c : V3) : a - c = ⟨a.r - c.r, a.g - c.g, a.b - c.b⟩ := rfl

/-- On a uniform texture every quadrant statistic is (mean c, variance 0). -/
theorem quadStat_const (c : V3) (uv texel : ℚ × ℚ) (r : ℚ) (qd : ℚ × ℚ) :
    quadStat (fun _ => c) uv texel r qd = (c, 0) := by
  simp [quadStat, kuwaharaGrid, V3.add_def, V3.mul_def, V3.sub_def, V3.scale,
    V3.splat, V3.max3, V3.dot, lumWeights, Prod.mk.injEq, V3.mk.injEq]
  ring_nf
  norm_num

/-- C3: on a uniform input, where every sampled texel equals the color c,
the 4-quadrant Kuwahara filter returns exactly c, and every quadrant has
mean c and luminance-weighted variance 0, for every resolution, kernel
size and pixel position. -/
theorem kuwaharaFilter_uniform (res : ℚ × ℚ) (ks : ℚ) (c : V3) (uv : ℚ × ℚ) :
    kuwaharaFilter res ks (fun _ => c) uv = c ∧
    (∀ qd : ℚ × ℚ,
      quadStat (fun _ => c) uv (1 / res.1, 1 / res.2) ks qd = (c, 0)) := by
  constructor
  · simp [kuwaharaFilter, kuwaharaQuadrants, quadStat_const]
  · intro qd
    exact quadStat_const c uv (1 / res.1, 1 / res.2) ks qd

/-- C7: for every channel of the section color transition, the eased
factor lies in [0, 1]; once the elapsed time reaches the 2000 ms
transition duration the updated channel equals the target exactly; and
every per-frame update moves the channel monotonically toward the target
without overshooting (it stays between the current value and the target,
and its distance to the target never grows). -/
theorem colorChannelUpdate_exact_no_overshoot (cur target elapsed : ℚ)
    (h0 : 0 ≤ elapsed) :
    (0 ≤ easeOutCubic (min (elapsed / transitionDuration) 1) ∧
     easeOutCubic (min (elapsed / transitionDuration) 1) ≤ 1) ∧
    (transitionDuration ≤ elapsed →
      colorChannelUpdate cur target elapsed = target) ∧
    |colorChannelUpdate cur target elapsed - target| ≤ |cur - target| ∧
    min cur target ≤ colorChannelUpdate cur target elapsed ∧
    colorChannelUpdate cur target elapsed ≤ max cur target := by
  have hdur : (0 : ℚ) < transitionDuration := by norm_num [transitionDuration]
  set q := min (elapsed / transitionDuration) 1 with hq
  have hq0 : 0 ≤ q := le_min (div_nonneg h0 (le_of_lt hdur)) (by norm_num)
  have hq1 : q ≤ 1 := min_le_right _ _
  have heb : 0 ≤ easeOutCubic q ∧ easeOutCubic q ≤ 1 := by
    unfold easeOutCubic
    have t0 : (0 : ℚ) ≤ 1 - q := by linarith
    have t1 : 1 - q ≤ 1 := by linarith
    have h3 : (1 - q) ^ 3 ≤ 1 := pow_le_one₀ t0 t1
    have h4 : 0 ≤ (1 - q) ^ 3 := pow_nonneg t0 3
    constructor <;> linarith
  refine ⟨heb, ?_, ?_, ?_, ?_⟩
  · intro hdone
    have h1 : (1 : ℚ) ≤ elapsed / transitionDuration :=
      (one_le_div hdur).mpr hdone
    have hqe : q = 1 := by rw [hq]; exact min_eq_right h1
    unfold colorChannelUpdate lerpQ
    rw [← hq, hqe]
    unfold easeOutCubic
    ring
  · have hrepr : colorChannelUpdate cur target elapsed - target =
        (cur - target) * (1 - easeOutCubic q) := by
      unfold colorChannelUpdate lerpQ
      rw [← hq]
      ring
    rw [hrepr, abs_mul]
    have : |1 - easeOutCubic q| = 1 - easeOutCubic q :=
      abs_of_nonneg (by linarith [heb.2])
    rw [this]
    nlinarith [abs_nonneg (cur - target), heb.1]
  · have hrepr : colorChannelUpdate cur target elapsed =
        cur + (target - cur) * easeOutCubic q := by
      unfold colorChannelUpdate lerpQ
      rw [← hq]
    rw [hrepr]
    rcases le_total cur target with h | h
    · rw [min_eq_left h]; nlinarith [heb.1]
    · rw [min_eq_right h]; nlinarith [heb.2]
  · have hrepr : colorChannelUpdate cur target elapsed =
        cur + (target - cur) * easeOutCubic q := by
      unfold colorChannelUpdate lerpQ
      rw [← hq]
    rw [hrepr]
    rcases le_total cur target with h | h
    · rw [max_eq_right h]; nlinarith [heb.2]
    · rw [max_eq_left h]; nlinarith [heb.1]

/-- Witness for C7 at cur = 0, target = 1, elapsed = 2500 ms. -/
theorem colorChannelUpdate_exact_no_overshoot_witness :
    (0 : ℚ) ≤ 2500 ∧
    ((0 ≤ easeOutCubic (min ((2500 : ℚ) / transitionDuration) 1) ∧
      easeOutCubic (min ((2500 : ℚ) / transitionDuration) 1) ≤ 1) ∧
     (transitionDuration ≤ (2500 : ℚ) →
       colorChannelUpdate 0 1 2500 = 1) ∧
     |colorChannelUpdate 0 1 2500 - 1| ≤ |(0 : ℚ) - 1| ∧
     min (0 : ℚ) 1 ≤ colorChannelUpdate 0 1 2500 ∧
     colorChannelUpdate 0 1 2500 ≤ max (0 : ℚ) 1) :=
  ⟨by norm_num, colorChannelUpdate_exact_no_overshoot 0 1 2500 (by norm_num)⟩

/-- Auxiliary invariant preservation for one movement-intensity step. -/
theorem intensityStep_mem {cur s : ℚ} (hc0 : 0 ≤ cur) (hc1 : cur ≤ 1)
    (hs : 0 ≤ s) : 0 ≤ intensityStep cur s ∧ intensityStep cur s ≤ 1 := by
  unfold intensityStep
  have ht0 : 0 ≤ intensityTarget s := by
    unfold intensityTarget
    exact le_min (by nlinarith) (by norm_num)
  have ht1 : intensityTarget s ≤ 1 := min_le_right _ _
  dsimp only
  split
  · unfold lerpQ
    constructor <;> nlinarith
  · unfold lerpQ
    constructor <;> nlinarith

/-- Auxiliary: the intensity fold preserves membership in [0, 1]. -/
theorem intensityRun_mem (speeds : List ℚ) :
    ∀ init : ℚ, 0 ≤ init → init ≤ 1 → (∀ s ∈ speeds, 0 ≤ s) →
      0 ≤ intensityRun init speeds ∧ intensityRun init speeds ≤ 1 := by
  induction speeds with
  | nil => intro init h0 h1 _; exact ⟨h0, h1⟩
  | cons x xs ih =>
    intro init h0 h1 hall
    have hx : 0 ≤ x := hall x (List.mem_cons_self x xs)
    have hstep := intensityStep_mem h0 h1 hx
    have hxs : ∀ s ∈ xs, 0 ≤ s := fun s hs => hall s (List.mem_cons_of_mem x hs)
    exact ih (intensityStep init x) hstep.1 hstep.2 hxs

/-- C9: the movement-intensity scalar stays in [0, 1]: the per-frame
target min(speed * 50, 1) lies in [0, 1] for every nonnegative speed, and
starting from 0 the asymmetrically smoothed intensity (factor 0.3 rising,
0.05 decaying) remains in [0, 1] after every sequence of frame speeds. -/
theorem moveIntensity_invariant (speeds : List ℚ)
    (h : ∀ s ∈ speeds, 0 ≤ s) :
    (∀ s ∈ speeds, 0 ≤ intensityTarget s ∧ intensityTarget s ≤ 1) ∧
    0 ≤ intensityRun 0 speeds ∧ intensityRun 0 speeds ≤ 1 := by
  refine ⟨fun s hs => ?_, intensityRun_mem speeds 0 le_rfl (by norm_num) h⟩
  have hs0 := h s hs
  unfold intensityTarget
  exact ⟨le_min (by nlinarith) (by norm_num), min_le_right _ _⟩

/-- Witness for C9 at the concrete speed sequence [0, 1, 1/50]. -/
theorem moveIntensity_invariant_witness :
    (∀ s ∈ ([0, 1, 1/50] : List ℚ), 0 ≤ s) ∧
    ((∀ s ∈ ([0, 1, 1/50] : List ℚ),
        0 ≤ intensityTarget s ∧ intensityTarget s ≤ 1) ∧
     0 ≤ intensityRun 0 ([0, 1, 1/50] : List ℚ) ∧
     intensityRun 0 ([0, 1, 1/50] : List ℚ) ≤ 1) :=
  ⟨by intro s hs; fin_cases hs <;> norm_num,
   moveIntensity_invariant _ (by intro s hs; fin_cases hs <;> norm_num)⟩

/-- mixQ at blend factor 0 returns the first argument. -/
theorem mixQ_zero (x y : ℚ) : mixQ x y 0 = x := by unfold mixQ; ring

/-- mixQ at blend factor 1 returns the second argument. -/
theorem mixQ_one (x y : ℚ) : mixQ x y 1 = y := by unfold mixQ; ring

/-- V3.mix3 at blend factor 0 returns the first argument. -/
theorem V3.mix3_zero (x y : V3) : V3.mix3 x y 0 = x := by
  apply V3.ext3 <;> simp [V3.mix3, mixQ_zero]

/-- V3.mix3 at blend factor 1 returns the second argument. -/
theorem V3.mix3_one (x y : V3) : V3.mix3 x y 1 = y := by
  apply V3.ext3 <;> simp [V3.mix3, mixQ_one]

/-- V3.scale by 1 is the identity. -/
theorem V3.scale_one (a : V3) : V3.scale 1 a = a := by
  apply V3.ext3 <;> simp [V3.scale]

/-- The desktop uniform defaults of the watercolor enhancement pass
(createWatercolorPass in three-manager.ts). -/
def enhanceParamsDefault : EnhanceParams :=
  { resolution := (800, 600), paperStrength := 0.45, paperScale := 3
    saturation := 1.5, edgeDarkening := 0.4, vignetteStrength := 0.25
    useDisplacement := 1, contrast := 1.1, skipEdgeDetection := 0 }

/-- C8 counterexample: at the center pixel of a uniform 1/4-gray input
whose displacement height is -1/2 (revealed, effect strength 0), the
enhancement stage still changes the color, from 1/4 to 9/40, because the
contrast remap is not scaled by the displacement-reveal factor: a
revealed pixel does not bypass all of the stage effects. -/
theorem enhance_reveal_not_bypassed :
    enhanceEffectStrength enhanceParamsDefault (fun _ => -1/2) (1/2, 1/2)
      = 0 ∧
    enhanceMain enhanceParamsDefault (fun _ => V3.splat (1/4))
      (fun _ => V3.splat 1) (fun _ => -1/2) (fun _ => 0) (1/2, 1/2)
      = V3.splat (9/40) ∧
    V3.splat (9/40) ≠ V3.splat (1/4) := by
  refine ⟨?_, ?_, ?_⟩
  · norm_num [enhanceEffectStrength, enhanceParamsDefault]
  · norm_num [enhanceMain, enhanceBody, enhanceSampleUV,
      enhanceEffectStrength, enhanceDispGradient, detectEdges,
      enhanceVignette, enhanceParamsDefault, V3.splat, V3.scale, V3.mix3,
      V3.dot, V3.clamp3, V3.mul_def, mixQ, clampQ, smoothstepQ,
      lumWeights, min_def, max_def]
  · intro h
    have := congrArg V3.r h
    norm_num [V3.splat] at this

/-- C8 amended: on a revealed pixel (displacement height below -0.1 with
displacement in use), the enhancement stage bypasses edge darkening,
saturation boost and paper texture, but the vignette and the contrast
remap still apply: the output is the clamp of the contrast remap of the
vignette-scaled source color. -/
theorem enhance_reveal_bypasses_three_effects (p : EnhanceParams)
    (texDiffuse texPaper : ℚ × ℚ → V3) (texDisp : ℚ × ℚ → ℚ)
    (sqrtF : ℚ → ℚ) (vUv : ℚ × ℚ) (huse : p.useDisplacement > 0.5)
    (hrev : texDisp vUv < -0.1) :
    enhanceMain p texDiffuse texPaper texDisp sqrtF vUv =
      V3.clamp3
        ⟨(mixQ 1 (enhanceVignette sqrtF vUv) p.vignetteStrength *
            (texDiffuse (enhanceSampleUV p texDisp vUv)).r - 0.5) *
              p.contrast + 0.5,
         (mixQ 1 (enhanceVignette sqrtF vUv) p.vignetteStrength *
            (texDiffuse (enhanceSampleUV p texDisp vUv)).g - 0.5) *
              p.contrast + 0.5,
         (mixQ 1 (enhanceVignette sqrtF vUv) p.vignetteStrength *
            (texDiffuse (enhanceSampleUV p texDisp vUv)).b - 0.5) *
              p.contrast + 0.5⟩ 0 1 := by
  have hes : enhanceEffectStrength p texDisp vUv = 0 := by
    unfold enhanceEffectStrength
    rw [if_pos huse, if_pos hrev]
  unfold enhanceMain enhanceBody
  rw [hes]
  simp [mul_zero, mixQ_zero, V3.mix3_zero, V3.mix3_one, V3.scale_one,
    V3.scale]

/-- Witness for the C8 amended theorem at the concrete revealed pixel. -/
theorem enhance_reveal_bypasses_three_effects_witness :
    (enhanceParamsDefault.useDisplacement > 0.5) ∧
    ((fun _ : ℚ × ℚ => (-1/2 : ℚ)) (1/2, 1/2) < -0.1) ∧
    enhanceMain enhanceParamsDefault (fun _ => V3.splat (1/4))
        (fun _ => V3.splat 1) (fun _ => -1/2) (fun _ => 0) (1/2, 1/2) =
      V3.clamp3
        ⟨(mixQ 1 (enhanceVignette (fun _ => 0) (1/2, 1/2))
              enhanceParamsDefault.vignetteStrength *
            ((fun _ : ℚ × ℚ => V3.splat (1/4))
              (enhanceSampleUV enhanceParamsDefault (fun _ => -1/2)
                (1/2, 1/2))).r - 0.5) * enhanceParamsDefault.contrast + 0.5,
         (mixQ 1 (enhanceVignette (fun _ => 0) (1/2, 1/2))
              enhanceParamsDefault.vignetteStrength *
            ((fun _ : ℚ × ℚ => V3.splat (1/4))
              (enhanceSampleUV enhanceParamsDefault (fun _ => -1/2)
                (1/2, 1/2))).g - 0.5) * enhanceParamsDefault.contrast + 0.5,
         (mixQ 1 (enhanceVignette (fun _ => 0) (1/2, 1/2))
              enhanceParamsDefault.vignetteStrength *
            ((fun _ : ℚ × ℚ => V3.splat (1/4))
              (enhanceSampleUV enhanceParamsDefault (fun _ => -1/2)
                (1/2, 1/2))).b - 0.5) * enhanceParamsDefault.contrast + 0.5⟩
        0 1 :=
  ⟨by norm_num [enhanceParamsDefault],
   by norm_num,
   enhance_reveal_bypasses_three_effects enhanceParamsDefault _ _ _ _ _
     (by norm_num [enhanceParamsDefault]) (by norm_num)⟩

/-- The cubic smoothing t * t * (3 - 2t) maps [0, 1] into [0, 1]. -/
theorem smoothCubic_mem {t : ℚ} (h0 : 0 ≤ t) (h1 : t ≤ 1) :
    0 ≤ t * t * (3 - 2 * t) ∧ t * t * (3 - 2 * t) ≤ 1 := by
  constructor <;> nlinarith [sq_nonneg (1 - t), sq_nonneg t]

/-- The wash hash lands in [0, 1] whatever the sine oracle returns,
because of the final fract. -/
theorem washHash_mem (sinF : ℚ → ℚ) (p : ℚ × ℚ) :
    0 ≤ washHash sinF p ∧ washHash sinF p ≤ 1 := by
  unfold washHash
  exact ⟨fractQ_nonneg _, le_of_lt (fractQ_lt_one _)⟩

/-- The wash value noise lands in [0, 1]. -/
theorem washNoise_mem (sinF : ℚ → ℚ) (p : ℚ × ℚ) :
    0 ≤ washNoise sinF p ∧ washNoise sinF p ≤ 1 := by
  unfold washNoise
  dsimp only
  have hf1 := smoothCubic_mem (fractQ_nonneg p.1)
    (le_of_lt (fractQ_lt_one p.1))
  have hf2 := smoothCubic_mem (fractQ_nonneg p.2)
    (le_of_lt (fractQ_lt_one p.2))
  have hA := washHash_mem sinF ((⌊p.1⌋ : ℚ), (⌊p.2⌋ : ℚ))
  have hB := washHash_mem sinF ((⌊p.1⌋ : ℚ) + 1, (⌊p.2⌋ : ℚ))
  have hC := washHash_mem sinF ((⌊p.1⌋ : ℚ), (⌊p.2⌋ : ℚ) + 1)
  have hD := washHash_mem sinF ((⌊p.1⌋ : ℚ) + 1, (⌊p.2⌋ : ℚ) + 1)
  have hi1 := mixQ_mem hA.1 hA.2 hB.1 hB.2 hf1.1 hf1.2
  have hi2 := mixQ_mem hC.1 hC.2 hD.1 hD.2 hf1.1 hf1.2
  exact mixQ_mem hi1.1 hi1.2 hi2.1 hi2.2 hf2.1 hf2.2

/-- The 4-octave fbm noise lands in [0, 15/16]. -/
theorem fbmNoise_mem (sinF : ℚ → ℚ) (p : ℚ × ℚ) :
    0 ≤ fbmNoise sinF p ∧ fbmNoise sinF p ≤ 15 / 16 := by
  unfold fbmNoise
  dsimp only
  have h1 := washNoise_mem sinF p
  have h2 := washNoise_mem sinF (p.1 * 2, p.2 * 2)
  have h3 := washNoise_mem sinF (p.1 * 2 * 2, p.2 * 2 * 2)
  have h4 := washNoise_mem sinF (p.1 * 2 * 2 * 2, p.2 * 2 * 2 * 2)
  constructor <;> nlinarith [h1.1, h1.2, h2.1, h2.2, h3.1, h3.2, h4.1, h4.2]

/-- The layered wash boundary noise lands in [0, 0.386875]. -/
theorem washTotalNoise_mem (sinF : ℚ → ℚ) (rotatedUV : ℚ × ℚ) :
    0 ≤ washTotalNoise sinF rotatedUV ∧
    washTotalNoise sinF rotatedUV ≤ 386875 / 1000000 := by
  unfold washTotalNoise
  dsimp only
  have h1 := fbmNoise_mem sinF (rotatedUV.1 * 1.5, rotatedUV.2 * 3)
  have h2 := fbmNoise_mem sinF (rotatedUV.1 * 4 + 100, rotatedUV.2 * 8 + 100)
  have h3 := washNoise_mem sinF (rotatedUV.1 * 20, rotatedUV.2 * 20)
  constructor <;> nlinarith [h1.1, h1.2, h2.1, h2.2, h3.1, h3.2]

/-- For a rotation whose cosine/sine pair lies on the unit circle, the
rotated x coordinate of a unit-square UV stays below 1.21. -/
theorem washRotatedUV_x_le {c s : ℚ} (hcs : c ^ 2 + s ^ 2 = 1)
    {uv : ℚ × ℚ} (h1 : 0 ≤ uv.1) (h2 : uv.1 ≤ 1) (h3 : 0 ≤ uv.2)
    (h4 : uv.2 ≤ 1) : (washRotatedUV c s uv).1 ≤ 121 / 100 := by
  unfold washRotatedUV
  dsimp only
  have ha : (uv.1 - 1/2) ^ 2 ≤ 1/4 := by nlinarith
  have hb : (uv.2 - 1/2) ^ 2 ≤ 1/4 := by nlinarith
  have key : ((uv.1 - 1/2) * c - (uv.2 - 1/2) * s) ^ 2 +
      ((uv.1 - 1/2) * s + (uv.2 - 1/2) * c) ^ 2 =
      ((uv.1 - 1/2) ^ 2 + (uv.2 - 1/2) ^ 2) * (c ^ 2 + s ^ 2) := by ring
  rw [hcs, mul_one] at key
  have hX2 : ((uv.1 - 1/2) * c - (uv.2 - 1/2) * s) ^ 2 ≤ 1/2 := by
    nlinarith [sq_nonneg ((uv.1 - 1/2) * s + (uv.2 - 1/2) * c)]
  have hX : (uv.1 - 1/2) * c - (uv.2 - 1/2) * s ≤ 71/100 := by
    nlinarith [sq_nonneg ((uv.1 - 1/2) * c - (uv.2 - 1/2) * s - 71/100)]
  have hgoal : (uv.1 - 0.5) * c - (uv.2 - 0.5) * s ≤ 71/100 := by
    norm_num
    linarith [hX]
  linarith [hgoal]

/-- C4: at wash progress 0 the crossfade returns exactly the current
image color at every UV, and at progress 1 exactly the next image color,
for every wash angle (modeled by a cosine/sine pair on the unit circle),
every resolution and aspect, and every UV in the unit square: the noise
perturbation cannot leak the other image at the endpoints. -/
theorem getImageColor_endpoints (cosF sinF : ℚ → ℚ) (res : ℚ × ℚ)
    (aspect angle : ℚ) (texC texN : ℚ × ℚ → V3) (uv : ℚ × ℚ)
    (hcs : cosF angle ^ 2 + sinF angle ^ 2 = 1)
    (h1 : 0 ≤ uv.1) (h2 : uv.1 ≤ 1) (h3 : 0 ≤ uv.2) (h4 : uv.2 ≤ 1) :
    getImageColor cosF sinF res aspect 0 angle texC texN uv =
      texC (washGetImageUV res aspect uv) ∧
    getImageColor cosF sinF res aspect 1 angle texC texN uv =
      texN (washGetImageUV res aspect uv) := by
  constructor
  · unfold getImageColor
    rw [if_neg (by norm_num : ¬((0 : ℚ) > 0))]
  · have hrot := washRotatedUV_x_le hcs h1 h2 h3 h4
    have htn := washTotalNoise_mem sinF
      (washRotatedUV (cosF angle) (sinF angle) uv)
    have hedge : (washRotatedUV (cosF angle) (sinF angle) uv).1 -
        ((1 : ℚ) * 1 * (3 - 2 * 1) * 2.6 - 0.8) +
        washTotalNoise sinF (washRotatedUV (cosF angle) (sinF angle) uv) ≤
        -(0.15 : ℚ) := by
      norm_num
      linarith [hrot, htn.2]
    have hmask := smoothstepQ_of_le hedge
      (by norm_num : -(0.15 : ℚ) < 0.15)
    unfold getImageColor
    rw [if_pos (by norm_num : (1 : ℚ) > 0)]
    dsimp only
    rw [hmask, V3.mix3_zero]

/-- Witness for C4 at angle with cosine 1 and sine 0, unit resolution and
aspect, and the center UV. -/
theorem getImageColor_endpoints_witness :
    ((fun _ : ℚ => (1 : ℚ)) 0 ^ 2 + (fun _ : ℚ => (0 : ℚ)) 0 ^ 2 = 1) ∧
    (0 : ℚ) ≤ 1/2 ∧ (1/2 : ℚ) ≤ 1 ∧
    (getImageColor (fun _ => 1) (fun _ => 0) (1, 1) 1 0 0
        (fun _ => V3.splat 1) (fun _ => V3.splat 0) (1/2, 1/2) =
      (fun _ : ℚ × ℚ => V3.splat 1) (washGetImageUV (1, 1) 1 (1/2, 1/2)) ∧
     getImageColor (fun _ => 1) (fun _ => 0) (1, 1) 1 1 0
        (fun _ => V3.splat 1) (fun _ => V3.splat 0) (1/2, 1/2) =
      (fun _ : ℚ × ℚ => V3.splat 0) (washGetImageUV (1, 1) 1 (1/2, 1/2))) :=
  ⟨by norm_num, by norm_num, by norm_num,
   getImageColor_endpoints (fun _ => 1) (fun _ => 0) (1, 1) 1 0
     (fun _ => V3.splat 1) (fun _ => V3.splat 0) (1/2, 1/2)
     (by norm_num) (by norm_num) (by norm_num) (by norm_num) (by norm_num)⟩

/-- The no-activity scenario state during the pure idle phase
(ticks 31 to 61, i.e. t = 15.5 s to t = 30.5 s). -/
def idleStateIdle : IdleSM :=
  { lastActivityTime := 0, isIdle := true, idleStartTime := 15500
    isWashTransitioning := false, washProgress := 0, washStartTime := 0
    currentPaintingIndex := 0, totalPaintings := 7 }

/-- The no-activity scenario state during the wash phase (ticks 62 to
71): the wash progress advances linearly from the 31000 ms start. -/
def idleStateWash (n : ℕ) : IdleSM :=
  { lastActivityTime := 0, isIdle := true, idleStartTime := 31000
    isWashTransitioning := true
    washProgress := min (((500 * (n : ℤ) - 31000 : ℤ) : ℚ) / washDuration) 1
    washStartTime := 31000, currentPaintingIndex := 1, totalPaintings := 7 }

/-- The no-activity scenario state after the wash completes (tick 72,
t = 36 s). -/
def idleStateDone : IdleSM :=
  { lastActivityTime := 0, isIdle := true, idleStartTime := 31000
    isWashTransitioning := false, washProgress := 0, washStartTime := 31000
    currentPaintingIndex := 1, totalPaintings := 7 }

/-- The interval callback is a no-op while still within the idle
timeout of the last activity. -/
theorem idleCheck_still_active {now : ℤ} {s : IdleSM}
    (h1 : ¬(now - s.lastActivityTime > idleTimeout))
    (h2 : s.isIdle = false) : idleCheck now s = s := by
  unfold idleCheck
  simp [h1, h2]

/-- The interval callback is a no-op while idle but still within the
second idle timeout. -/
theorem idleCheck_idle_waiting {now : ℤ} {s : IdleSM}
    (h2 : s.isIdle = true) (h3 : s.isWashTransitioning = false)
    (h4 : ¬(now - s.idleStartTime > idleTimeout)) : idleCheck now s = s := by
  unfold idleCheck
  simp [h2, h3, h4]

/-- The interval callback is a no-op while a wash is in flight. -/
theorem idleCheck_during_wash {now : ℤ} {s : IdleSM}
    (h2 : s.isIdle = true) (h3 : s.isWashTransitioning = true) :
    idleCheck now s = s := by
  unfold idleCheck
  simp [h2, h3]

/-- The frame update is a no-op when no wash is in flight. -/
theorem frameUpdate_no_wash {now : ℤ} {s : IdleSM}
    (h : s.isWashTransitioning = false) : frameUpdate now s = s := by
  unfold frameUpdate
  simp [h]

/-- The frame update advances the wash while one is in flight. -/
theorem frameUpdate_wash {now : ℤ} {s : IdleSM}
    (h : s.isWashTransitioning = true) :
    frameUpdate now s = updateWashTransition now s := by
  unfold frameUpdate
  simp [h]

/-- While the computed wash progress is still below 1, the wash update
only stores the new progress. -/
theorem updateWashTransition_in_flight {now : ℤ} {s : IdleSM}
    (h : min (((now - s.washStartTime : ℤ) : ℚ) / washDuration) 1 < 1) :
    updateWashTransition now s =
      { s with
        washProgress := min (((now - s.washStartTime : ℤ) : ℚ) / washDuration) 1
      } := by
  unfold updateWashTransition
  dsimp only
  rw [if_neg (not_le.mpr h)]

/-- In the no-activity scenario the machine is still Active (not idle)
at every tick up to t = 15 s. -/
theorem idleScenario_active_phase (n : ℕ) (h : n ≤ 30) :
    idleScenario n = idleInit := by
  induction n with
  | zero => rfl
  | succ k ih =>
    have hk : k ≤ 30 := Nat.le_of_succ_le h
    have step : idleScenario (k + 1) =
        frameUpdate (500 * ((k : ℤ) + 1))
          (idleCheck (500 * ((k : ℤ) + 1)) (idleScenario k)) := rfl
    rw [step, ih hk]
    have hkz : (k : ℤ) + 1 ≤ 30 := by exact_mod_cast h
    have h1 : ¬((500 : ℤ) * ((k : ℤ) + 1) - idleInit.lastActivityTime >
        idleTimeout) := by
      simp [idleInit, idleTimeout]
      linarith
    rw [idleCheck_still_active h1 rfl, frameUpdate_no_wash rfl]

/-- At tick 31 (t = 15.5 s) the machine enters the idle state. -/
theorem idleScenario_31 : idleScenario 31 = idleStateIdle := by
  have step : idleScenario 31 =
      frameUpdate 15500 (idleCheck 15500 (idleScenario 30)) := rfl
  rw [step, idleScenario_active_phase 30 (by norm_num)]
  unfold idleCheck frameUpdate triggerNextPainting idleInit idleStateIdle
    idleTimeout
  norm_num

/-- The machine stays in the idle state from tick 31 through tick 61
(t = 30.5 s). -/
theorem idleScenario_idle_phase (n : ℕ) (hlo : 31 ≤ n) (hhi : n ≤ 61) :
    idleScenario n = idleStateIdle := by
  induction n with
  | zero => omega
  | succ k ih =>
    rcases Nat.lt_or_ge k 31 with hk | hk
    · have hes : k + 1 = 31 := by omega
      rw [hes]
      exact idleScenario_31
    · have hk61 : k ≤ 60 := by omega
      have step : idleScenario (k + 1) =
          frameUpdate (500 * ((k : ℤ) + 1))
            (idleCheck (500 * ((k : ℤ) + 1)) (idleScenario k)) := rfl
      rw [step, ih hk (by omega)]
      have hkz : (k : ℤ) ≤ 60 := by exact_mod_cast hk61
      have h4 : ¬((500 : ℤ) * ((k : ℤ) + 1) - idleStateIdle.idleStartTime >
          idleTimeout) := by
        simp [idleStateIdle, idleTimeout]
        linarith
      rw [idleCheck_idle_waiting rfl rfl h4, frameUpdate_no_wash rfl]

/-- At tick 62 (t = 31 s) the wash transition is triggered and the
painting index advances to (0 + 1) mod 7. -/
theorem idleScenario_62 : idleScenario 62 = idleStateWash 62 := by
  have step : idleScenario 62 =
      frameUpdate 31000 (idleCheck 31000 (idleScenario 61)) := rfl
  rw [step, idleScenario_idle_phase 61 (by norm_num) (by norm_num)]
  unfold idleCheck frameUpdate triggerNextPainting updateWashTransition
    completeWashTransition idleStateIdle idleStateWash idleTimeout
    washDuration
  norm_num

/-- The wash stays in flight from tick 62 through tick 71 (t = 35.5 s),
its progress advancing linearly. -/
theorem idleScenario_wash_phase (n : ℕ) (hlo : 62 ≤ n) (hhi : n ≤ 71) :
    idleScenario n = idleStateWash n := by
  induction n with
  | zero => omega
  | succ k ih =>
    rcases Nat.lt_or_ge k 62 with hk | hk
    · have hes : k + 1 = 62 := by omega
      rw [hes]
      exact idleScenario_62
    · have hk71 : k ≤ 70 := by omega
      have step : idleScenario (k + 1) =
          frameUpdate (500 * ((k : ℤ) + 1))
            (idleCheck (500 * ((k : ℤ) + 1)) (idleScenario k)) := rfl
      rw [step, ih hk (by omega)]
      rw [idleCheck_during_wash rfl rfl]
      have hkz : (k : ℚ) ≤ 70 := by exact_mod_cast hk71
      have hprog : (((500 * ((k : ℤ) + 1) - 31000 : ℤ) : ℚ) / 5000) < 1 := by
        rw [div_lt_one (by norm_num)]
        push_cast
        linarith
      have hmin : min (((500 * ((k : ℤ) + 1) - 31000 : ℤ) : ℚ) / 5000) 1
          < 1 := lt_of_le_of_lt (min_le_left _ _) hprog
      have hws : (idleStateWash k).washStartTime = 31000 := rfl
      have hmin2 : min (((500 * ((k : ℤ) + 1) -
          (idleStateWash k).washStartTime : ℤ) : ℚ) / washDuration) 1 < 1 := by
        rw [hws]
        unfold washDuration
        exact hmin
      rw [frameUpdate_wash rfl, updateWashTransition_in_flight hmin2]
      simp only [idleStateWash, washDuration, IdleSM.mk.injEq, hws,
        and_true, true_and]
      push_cast
      ring_nf

/-- At tick 72 (t = 36 s) the wash completes: progress reached 1, the
machine is idle again, the painting index remains the incremented one. -/
theorem idleScenario_72 : idleScenario 72 = idleStateDone := by
  have step : idleScenario 72 =
      frameUpdate 36000 (idleCheck 36000 (idleScenario 71)) := rfl
  rw [step, idleScenario_wash_phase 71 (by norm_num) (by norm_num)]
  rw [idleCheck_during_wash rfl rfl]
  rw [frameUpdate_wash rfl]
  unfold updateWashTransition completeWashTransition idleStateWash
    idleStateDone washDuration
  norm_num

/-- C6 counterexample: in the no-activity scenario the machine is still
Active at t = 15 s (tick 30), not Idle as the claim states, and is still
not Washing at t = 30.5 s (tick 61), though the claim states Washing from
t = 30 s: the 500 ms polling with strict comparisons shifts every
transition. -/
theorem idleScenario_claim_countereg :
    (idleScenario 30).isIdle = false ∧
    (idleScenario 61).isWashTransitioning = false := by
  constructor
  · rw [idleScenario_active_phase 30 (by norm_num)]; rfl
  · rw [idleScenario_idle_phase 61 (by norm_num) (by norm_num)]; rfl

/-- C6 amended: with the 500 ms idle poll and strict comparisons, the
no-activity scenario with idleTimeout 15 s and washDuration 5 s passes
through: Active (not idle) at every tick up to and including t = 15 s;
Idle from the first poll after 15 s (t = 15.5 s, tick 31); still not
Washing through t = 30.5 s (tick 61); Washing from t = 31 s (tick 62,
when the painting index advances) through t = 35.5 s (tick 71); and at
t = 36 s (tick 72) the wash is complete, the machine is Idle again, and
the painting index equals (0 + 1) mod 7. -/
theorem idleScenario_timeline :
    (∀ n : ℕ, n ≤ 30 → (idleScenario n).isIdle = false) ∧
    (∀ n : ℕ, 31 ≤ n → n ≤ 72 → (idleScenario n).isIdle = true) ∧
    (∀ n : ℕ, n ≤ 61 → (idleScenario n).isWashTransitioning = false) ∧
    (∀ n : ℕ, 62 ≤ n → n ≤ 71 →
      (idleScenario n).isWashTransitioning = true) ∧
    (idleScenario 72).isWashTransitioning = false ∧
    (idleScenario 72).currentPaintingIndex = (0 + 1) % 7 := by
  refine ⟨?_, ?_, ?_, ?_, ?_, ?_⟩
  · intro n h
    rw [idleScenario_active_phase n h]; rfl
  · intro n h1 h2
    rcases Nat.lt_or_ge n 62 with h | h
    · rw [idleScenario_idle_phase n h1 (by omega)]; rfl
    · rcases Nat.lt_or_ge n 72 with h72 | h72
      · rw [idleScenario_wash_phase n h (by omega)]; rfl
      · have hn : n = 72 := by omega
        rw [hn, idleScenario_72]; rfl
  · intro n h
    rcases Nat.lt_or_ge n 31 with h31 | h31
    · rw [idleScenario_active_phase n (by omega)]; rfl
    · rw [idleScenario_idle_phase n h31 h]; rfl
  · intro n h1 h2
    rw [idleScenario_wash_phase n h1 h2]; rfl
  · rw [idleScenario_72]; rfl
  · rw [idleScenario_72]; rfl

/-- Witness for the C6 amended timeline at ticks 10, 40 and 65. -/
theorem idleScenario_timeline_witness :
    ((10 : ℕ) ≤ 30 ∧ (idleScenario 10).isIdle = false) ∧
    ((31 : ℕ) ≤ 40 ∧ (40 : ℕ) ≤ 72 ∧ (idleScenario 40).isIdle = true) ∧
    ((62 : ℕ) ≤ 65 ∧ (65 : ℕ) ≤ 71 ∧
      (idleScenario 65).isWashTransitioning = true) :=
  ⟨⟨by norm_num, idleScenario_timeline.1 10 (by norm_num)⟩,
   ⟨by norm_num, by norm_num,
    idleScenario_timeline.2.1 40 (by norm_num) (by norm_num)⟩,
   ⟨by norm_num, by norm_num,
    idleScenario_timeline.2.2.2.1 65 (by norm_num) (by norm_num)⟩⟩
